import Mathlib

/-!
# Verification of stress-ng's OOM handling core (stress-oom.c excerpt)

Shallow embedding of the three components in `src/unnamed/part_000`:

* `stress_process_oomed`       — the OOM-kill detector scanning `/dev/kmsg`;
* `stress_set_adjustment` and `stress_set_oom_adjustment` — the OOM score
  adjuster writing `/proc/self/oom_score_adj` (modern) or `/proc/self/oom_adj`
  (legacy);
* `stress_oomable_child`       — the fork/wait supervisor with its signal
  escalation schedule and death counters.

OS interactions (open/read/write results, fork results, waitpid results,
the continuation flag and the deadline clock) are passed in explicitly as
oracles, so every function is executable and every control-flow decision of
the C code is mirrored one-for-one.
-/

namespace StressNg

/-! ## Errno and signal constants (Linux) -/

def EAGAIN : Int := 11
def EINTR : Int := 4
def ENOENT : Int := 2
def ECHILD : Int := 10
def ENOMEM : Int := 12

def SIGBUS : Nat := 7
def SIGKILL : Nat := 9
def SIGSEGV : Nat := 11
def SIGALRM : Nat := 14
def SIGTERM : Nat := 15

def EXIT_SUCCESS : Int := 0

/-! ## Numeric values of the adjustment strings

The C writes the decimal strings `"-1000"`, `"1000"`, `"-17"`, `"-16"`,
`"15"`, `"0"` to the proc files; we model each by its numeric value. -/

def OOM_SCORE_ADJ_MIN : Int := -1000
def OOM_SCORE_ADJ_MAX : Int := 1000

def OOM_ADJ_NO_OOM : Int := -17
def OOM_ADJ_MIN : Int := -16
def OOM_ADJ_MAX : Int := 15

/-! ## `stress_set_adjustment`

One loop iteration opens the proc file and writes the string once.  The
oracle `att : Nat → WriteOutcome` gives the OS outcome of the i-th
iteration: the `open` fails with an errno, or the `write` returns `n > 0`
(success), `n < 0` with an errno, or `n = 0` (zero bytes written; the C
keeps whatever stale errno is current, models as an unused payload). -/

inductive WriteOutcome where
  | openFail (errno : Int)
  | writeOk
  | writeErr (errno : Int)
  | writeZero (errno : Int)
deriving DecidableEq, Repr

/-- The `for (i = 0; i < 32; i++)` loop of `stress_set_adjustment`,
returning the C return value paired with the number of iterations
(open+write attempts) actually performed.  `fuel` counts the remaining
iterations, `i` the current index. -/
def setAdjLoop (att : Nat → WriteOutcome) : Nat → Nat → Int × Nat
  | 0, i => (-1, i)
  | fuel + 1, i =>
    match att i with
    | .openFail e => (-e, i + 1)
    | .writeOk => (0, i + 1)
    | .writeErr e =>
        if e ≠ EAGAIN ∧ e ≠ EINTR then (-e, i + 1)
        else setAdjLoop att fuel (i + 1)
    | .writeZero _ => setAdjLoop att fuel (i + 1)

/-- `stress_set_adjustment` with its attempt count exposed. -/
def setAdjustmentRun (att : Nat → WriteOutcome) : Int × Nat :=
  setAdjLoop att 32 0

/-- The C function's return value: 0 for success, `-errno` on a hard
failure, `-1` after exhausting the 32 retries. -/
def stress_set_adjustment (att : Nat → WriteOutcome) : Int :=
  (setAdjustmentRun att).1

/-! ## `stress_set_oom_adjustment`

Inputs: the two option flags from `g_opt_flags`, whether `args` is
non-NULL (`argsPresent`), the `killable` argument, the privilege check
`(getuid() == 0) && (geteuid() == 0)` (`high_priv`), and the write oracles
of the two proc files.  Output: which value (if any) was attempted on each
interface. -/

structure OomAdjustTrace where
  modernWrite : Option Int
  legacyWrite : Option Int
deriving DecidableEq, Repr

def stress_set_oom_adjustment (no_oom_adjust oomable argsPresent killable high_priv : Bool)
    (mAtt lAtt : Nat → WriteOutcome) : OomAdjustTrace :=
  if no_oom_adjust then ⟨none, none⟩
  else
    let make_killable := killable || (argsPresent && oomable)
    let str := if make_killable then OOM_SCORE_ADJ_MAX
               else if high_priv then OOM_SCORE_ADJ_MIN else 0
    let ret := stress_set_adjustment mAtt
    if ret = 0 ∨ ret ≠ -ENOENT then ⟨some str, none⟩
    else
      let lstr := if make_killable then OOM_ADJ_MAX
                  else if high_priv then OOM_ADJ_NO_OOM else OOM_ADJ_MIN
      let _ := stress_set_adjustment lAtt
      ⟨some str, some lstr⟩

/-! ## `stress_process_oomed`

The kernel log device is modelled as `Option (List (List Char))`: `none`
when `open("/dev/kmsg")` fails, otherwise the sequence of chunks that
successive non-blocking `read`s return before one fails.  `strstr` and the
`sscanf(ptr + 7, "%10jd", ...)` parse are modelled character-exactly. -/

/-- `strstr(hay, pat)`: the suffix of `hay` starting at the first
occurrence of `pat`, or `none` when `pat` does not occur. -/
def strstr (hay pat : List Char) : Option (List Char) :=
  match hay with
  | [] => if pat = [] then some [] else none
  | _ :: rest => if pat.isPrefixOf hay then some hay else strstr rest pat

/-- C `isspace` on the characters `sscanf` skips before a `%d`-family
conversion. -/
def cIsSpace (c : Char) : Bool :=
  c = ' ' || c = '\t' || c = '\n' || c = '\x0b' || c = '\x0c' || c = '\r'

def digitsToNat (ds : List Char) : Nat :=
  ds.foldl (fun a c => a * 10 + (c.toNat - 48)) 0

/-- Greedy digit run limited to `w` characters; `none` when no digit is
available (a `sscanf` matching failure). -/
def scanDigits (w : Nat) (cs : List Char) : Option Nat :=
  let ds := (cs.take w).takeWhile Char.isDigit
  if ds = [] then none else some (digitsToNat ds)

/-- `sscanf(cs, "%<w>jd", &x)`: skip whitespace, optional sign (counted
against the field width), then digits. -/
def scanIntField (w : Nat) (cs : List Char) : Option Int :=
  let cs := cs.dropWhile cIsSpace
  match cs with
  | '-' :: rest => (scanDigits (w - 1) rest).map (fun n => -(n : Int))
  | '+' :: rest => (scanDigits (w - 1) rest).map (fun n => (n : Int))
  | _ => (scanDigits w cs).map (fun n => (n : Int))

/-- One chunk of the detector loop: the pid parsed after the first
`"process"` token, provided the chunk also contains `"Out of memory"` or
`"oom_reaper"`; `none` when the chunk does not match or the parse fails. -/
def chunkOomPid (buf : List Char) : Option Int :=
  match strstr buf "process".data with
  | none => none
  | some suffix =>
      if (strstr buf "Out of memory".data).isSome
          || (strstr buf "oom_reaper".data).isSome then
        scanIntField 10 (suffix.drop 7)
      else none

/-- `stress_process_oomed(pid)`: false when the device cannot be opened,
otherwise true iff some buffered chunk matches with exactly this pid. -/
def stress_process_oomed (pid : Int) (device : Option (List (List Char))) : Bool :=
  match device with
  | none => false
  | some chunks => chunks.any (fun buf => chunkOomPid buf = some pid)

/-! ## `stress_oomable_child`

The supervisor's interactions with the OS are driven by a trace.  Each
arrival at the `again:` label consumes one `SpawnEvent` carrying the
values of `stress_continue(args)`, the `stress_time_now() > args->time_end`
comparison, the `fork()` outcome and — for a successful fork — the
outcomes of the successive `waitpid` calls on that child.  `waitpid`
statuses are raw ints decoded by the glibc macros. -/

def WTERMSIG (status : Nat) : Nat := status % 128

def WIFSIGNALED (status : Nat) : Bool :=
  status % 128 ≠ 0 && status % 128 ≠ 127

def WEXITSTATUS (status : Nat) : Nat := status / 256 % 256

/-- The escalation schedule `signals[]`. -/
def signals : List Nat := [SIGALRM, SIGALRM, SIGALRM, SIGALRM, SIGTERM, SIGKILL]

inductive WaitResult where
  | fail (errno : Int)
  | reaped (status : Nat)
deriving DecidableEq, Repr

inductive ForkResult where
  | fail (errno : Int)
  | ok
deriving DecidableEq, Repr

structure SpawnEvent where
  cont : Bool
  pastDeadline : Bool
  forkRes : ForkResult
  waits : List WaitResult
deriving Repr

/-- The supervisor's mutable locals: `signal_idx` and the three death
counters (`rc` is only assigned immediately before `report`, so it needs
no slot here). -/
structure SupState where
  signal_idx : Nat
  ooms : Nat
  segvs : Nat
  buserrs : Nat
deriving DecidableEq, Repr

/-- Which `return` statement ended the invocation. -/
inductive ExitPath where
  | preSpawn   -- the pre-spawn continue/deadline check
  | forkErr    -- fork failed with a non-retryable errno
  | oomBail    -- external SIGKILL with OPT_FLAGS_OOMABLE set
  | report     -- fell through to the report: label
deriving DecidableEq, Repr

structure RunOut where
  ret : Int
  ooms : Nat
  segvs : Nat
  buserrs : Nat
  forks : Nat                 -- children spawned (successful forks)
  sleeps100 : Nat             -- shim_usleep(100000) calls after EAGAIN/ENOMEM forks
  episodes : List (List Nat)  -- escalation signals sent, per spawned child
  path : ExitPath
deriving DecidableEq, Repr

/-- Verdict of one `rewait` loop (one spawned child). -/
inductive EpisodeOut where
  | toReport (s : SupState) (sent : List Nat) (rc : Int)
  | toAgain (s : SupState) (sent : List Nat)
  | bail (s : SupState) (sent : List Nat)
  | stuck
deriving Repr

/-- The `rewait:` loop: waitpid failures (other than ECHILD) deliver
`signals[signal_idx]`, advance the index and re-wait until the schedule is
exhausted; a reaped status is classified as SIGBUS, external SIGKILL,
SIGSEGV, or falls through to `rc = WEXITSTATUS(status)`. -/
def waitLoop (oomable : Bool) (s : SupState) (sent : List Nat) :
    List WaitResult → EpisodeOut
  | [] => .stuck
  | w :: ws =>
    match w with
    | .fail e =>
        if e = ECHILD then .toReport s sent EXIT_SUCCESS
        else
          let sig := signals.getD s.signal_idx 0
          let s' := { s with signal_idx := s.signal_idx + 1 }
          if s'.signal_idx ≥ signals.length then .toReport s' (sent ++ [sig]) EXIT_SUCCESS
          else waitLoop oomable s' (sent ++ [sig]) ws
    | .reaped status =>
        if WIFSIGNALED status then
          if WTERMSIG status = SIGBUS then
            .toAgain { s with buserrs := s.buserrs + 1 } sent
          else if signals.getD s.signal_idx 0 ≠ SIGKILL ∧ WTERMSIG status = SIGKILL then
            if oomable then .bail s sent
            else .toAgain { s with ooms := s.ooms + 1 } sent
          else if WTERMSIG status = SIGSEGV then
            .toAgain { s with segvs := s.segvs + 1 } sent
          else .toReport s sent (WEXITSTATUS status)
        else .toReport s sent (WEXITSTATUS status)

/-- The `again:` loop.  Note that `signal_idx` and the counters live in
`s` across iterations: the C declares them once, before the label. -/
def supLoop (oomable : Bool) (s : SupState) (forks sleeps : Nat)
    (eps : List (List Nat)) : List SpawnEvent → Option RunOut
  | [] => none
  | ev :: evs =>
    if ev.cont = false ∨ ev.pastDeadline = true then
      some ⟨EXIT_SUCCESS, s.ooms, s.segvs, s.buserrs, forks, sleeps, eps, .preSpawn⟩
    else
      match ev.forkRes with
      | .fail e =>
          if e = EAGAIN ∨ e = ENOMEM then supLoop oomable s forks (sleeps + 1) eps evs
          else some ⟨-1, s.ooms, s.segvs, s.buserrs, forks, sleeps, eps, .forkErr⟩
      | .ok =>
          match waitLoop oomable s [] ev.waits with
          | .stuck => none
          | .toReport s' sent rc =>
              some ⟨rc, s'.ooms, s'.segvs, s'.buserrs, forks + 1, sleeps,
                    eps ++ [sent], .report⟩
          | .bail s' sent =>
              some ⟨EXIT_SUCCESS, s'.ooms, s'.segvs, s'.buserrs, forks + 1, sleeps,
                    eps ++ [sent], .oomBail⟩
          | .toAgain s' sent =>
              supLoop oomable s' (forks + 1) sleeps (eps ++ [sent]) evs

/-- `stress_oomable_child` (parent side), driven by a trace of spawn
events; `none` when the trace is too short to decide the run. -/
def stress_oomable_child (oomable : Bool) (trace : List SpawnEvent) : Option RunOut :=
  supLoop oomable ⟨0, 0, 0, 0⟩ 0 0 [] trace

/-! ## Helper lemmas for the adjustment retry loop -/

/-- Outcomes on which the `stress_set_adjustment` loop keeps retrying. -/
def loopsOn (o : WriteOutcome) : Prop :=
  o = WriteOutcome.writeErr EAGAIN ∨ o = WriteOutcome.writeErr EINTR ∨
    ∃ e, o = WriteOutcome.writeZero e

theorem setAdjLoop_skip (att : Nat → WriteOutcome) :
    ∀ (k fuel i : Nat), k ≤ fuel → (∀ j, j < k → loopsOn (att (i + j))) →
    setAdjLoop att fuel i = setAdjLoop att (fuel - k) (i + k) := by
  intro k
  induction k with
  | zero => intro fuel i _ _; simp
  | succ k ih =>
    intro fuel i hk h
    match fuel, hk with
    | f + 1, hk =>
      have h0 : loopsOn (att i) := by simpa using h 0 (Nat.succ_pos k)
      have step : setAdjLoop att (f + 1) i = setAdjLoop att f (i + 1) := by
        rcases h0 with h0 | h0 | ⟨e, h0⟩ <;>
          simp [setAdjLoop, h0, EAGAIN, EINTR]
      have htail : ∀ j, j < k → loopsOn (att (i + 1 + j)) := by
        intro j hj
        have := h (j + 1) (Nat.succ_lt_succ hj)
        simpa [Nat.add_assoc, Nat.add_comm, Nat.add_left_comm] using this
      have hrec := ih f (i + 1) (Nat.succ_le_succ_iff.mp hk) htail
      rw [step, hrec]
      have e1 : f - k = f + 1 - (k + 1) := by omega
      have e2 : i + 1 + k = i + (k + 1) := by omega
      rw [e1, e2]

/-- C4: in `stress_set_adjustment`, a write that always fails with EAGAIN or
EINTR is attempted exactly 32 times and the function then returns failure;
a write that fails with any other error (after any run of EAGAIN/EINTR
failures) returns that failure immediately, with no further attempts; a
successful write returns 0 immediately. -/
theorem C4_retry_bound :
    (∀ att : Nat → WriteOutcome,
      (∀ i, i < 32 → att i = .writeErr EAGAIN ∨ att i = .writeErr EINTR) →
      setAdjustmentRun att = (-1, 32)) ∧
    (∀ (att : Nat → WriteOutcome) (k : Nat) (e : Int), k < 32 →
      (∀ i, i < k → att i = .writeErr EAGAIN ∨ att i = .writeErr EINTR) →
      att k = .writeErr e → e ≠ EAGAIN → e ≠ EINTR →
      setAdjustmentRun att = (-e, k + 1)) ∧
    (∀ (att : Nat → WriteOutcome) (k : Nat), k < 32 →
      (∀ i, i < k → att i = .writeErr EAGAIN ∨ att i = .writeErr EINTR) →
      att k = .writeOk →
      setAdjustmentRun att = (0, k + 1)) := by
  refine ⟨?_, ?_, ?_⟩
  · intro att h
    have := setAdjLoop_skip att 32 32 0 le_rfl (fun j hj => by
      rcases h j (by simpa using hj) with h' | h' <;>
        simp [loopsOn, h'])
    simpa [setAdjustmentRun, setAdjLoop] using this
  · intro att k e hk h he hA hI
    have hskip := setAdjLoop_skip att k 32 0 (le_of_lt hk) (fun j hj => by
      rcases h j (by simpa using hj) with h' | h' <;>
        simp [loopsOn, h'])
    obtain ⟨m, hm⟩ : ∃ m, 32 - k = m + 1 := ⟨31 - k, by omega⟩
    rw [setAdjustmentRun, hskip, hm]
    simp [setAdjLoop, he, hA, hI]
  · intro att k hk h he
    have hskip := setAdjLoop_skip att k 32 0 (le_of_lt hk) (fun j hj => by
      rcases h j (by simpa using hj) with h' | h' <;>
        simp [loopsOn, h'])
    obtain ⟨m, hm⟩ : ∃ m, 32 - k = m + 1 := ⟨31 - k, by omega⟩
    rw [setAdjustmentRun, hskip, hm]
    simp [setAdjLoop, he]

/-- Witness for `C4_retry_bound` at concrete oracles. -/
theorem C4_retry_bound_witness :
    setAdjustmentRun (fun _ => .writeErr EAGAIN) = (-1, 32) ∧
    setAdjustmentRun (fun i => if i = 0 then .writeErr 13 else .writeOk) = (-13, 1) ∧
    setAdjustmentRun (fun _ => .writeOk) = (0, 1) :=
  ⟨C4_retry_bound.1 _ (fun i _ => Or.inl rfl),
   C4_retry_bound.2.1 _ 0 13 (by decide) (fun i hi => absurd hi (Nat.not_lt_zero i))
     (by decide) (by decide) (by decide),
   C4_retry_bound.2.2 _ 0 (by decide) (fun i hi => absurd hi (Nat.not_lt_zero i)) rfl⟩

/-- C10: a write returning zero bytes is retried regardless of errno; 32
zero-byte writes yield the generic failure `-1`, which differs from
`-ENOENT` and so never triggers the legacy-interface fallback in
`stress_set_oom_adjustment`; a failed `open` returns `-errno` on the very
first attempt. -/
theorem C10_zero_write :
    (∀ att : Nat → WriteOutcome,
      (∀ i, i < 32 → ∃ e, att i = .writeZero e) →
      setAdjustmentRun att = (-1, 32)) ∧
    ((-1 : Int) ≠ -ENOENT) ∧
    (∀ (oomable argsPresent killable high_priv : Bool)
       (mAtt lAtt : Nat → WriteOutcome),
      (∀ i, i < 32 → ∃ e, mAtt i = .writeZero e) →
      (stress_set_oom_adjustment false oomable argsPresent killable high_priv
        mAtt lAtt).legacyWrite = none) ∧
    (∀ (att : Nat → WriteOutcome) (e : Int), att 0 = .openFail e →
      setAdjustmentRun att = (-e, 1)) := by
  have main : ∀ att : Nat → WriteOutcome,
      (∀ i, i < 32 → ∃ e, att i = .writeZero e) →
      setAdjustmentRun att = (-1, 32) := by
    intro att h
    have := setAdjLoop_skip att 32 32 0 le_rfl (fun j hj => by
      exact Or.inr (Or.inr (by simpa using h j (by simpa using hj))))
    simpa [setAdjustmentRun, setAdjLoop] using this
  refine ⟨main, by decide, ?_, ?_⟩
  · intro oomable argsPresent killable high_priv mAtt lAtt h
    have hm : stress_set_adjustment mAtt = -1 := by
      simp [stress_set_adjustment, main mAtt h]
    simp [stress_set_oom_adjustment, hm, ENOENT]
  · intro att e h
    simp [setAdjustmentRun, setAdjLoop, h]

/-- Witness for `C10_zero_write` at concrete oracles. -/
theorem C10_zero_write_witness :
    setAdjustmentRun (fun _ => .writeZero 11) = (-1, 32) ∧
    (stress_set_oom_adjustment false false false false false
      (fun _ => .writeZero 11) (fun _ => .writeOk)).legacyWrite = none ∧
    setAdjustmentRun (fun _ => .openFail 13) = (-13, 1) :=
  ⟨C10_zero_write.1 _ (fun _ _ => ⟨11, rfl⟩),
   C10_zero_write.2.2.1 false false false false _ _ (fun _ _ => ⟨11, rfl⟩),
   C10_zero_write.2.2.2 _ 13 rfl⟩

/-- C3: `stress_set_oom_adjustment` attempts the legacy interface iff the
modern-interface attempt returns exactly `-ENOENT`; on success or any
other failure the legacy interface is never touched. -/
theorem C3_fallback_iff :
    ∀ (oomable argsPresent killable high_priv : Bool)
      (mAtt lAtt : Nat → WriteOutcome),
      ((stress_set_oom_adjustment false oomable argsPresent killable high_priv
        mAtt lAtt).legacyWrite).isSome = true ↔
      stress_set_adjustment mAtt = -ENOENT := by
  intro oomable argsPresent killable high_priv mAtt lAtt
  by_cases h : stress_set_adjustment mAtt = 0 ∨ stress_set_adjustment mAtt ≠ -ENOENT
  · have hne : stress_set_adjustment mAtt ≠ -ENOENT := by
      rcases h with h | h
      · rw [h]; decide
      · exact h
    simp [stress_set_oom_adjustment, h, hne]
  · push_neg at h
    simp [stress_set_oom_adjustment, h.2, h.1, ENOENT]

/-- The kernel log line of the spec's detector fixture. -/
def oomFixture : List Char := "Out of memory: Kill process 4242".data

/-- C5: the detector returns true on the fixture chunk for pid 4242 and
false for pid 4241; a chunk without "Out of memory" and without
"oom_reaper" never matches, whatever it otherwise contains; an unopenable
device yields false. -/
theorem C5_detector :
    stress_process_oomed 4242 (some [oomFixture]) = true ∧
    stress_process_oomed 4241 (some [oomFixture]) = false ∧
    (∀ (pid : Int) (chunks : List (List Char)),
      (∀ buf ∈ chunks, (strstr buf "Out of memory".data).isSome = false ∧
        (strstr buf "oom_reaper".data).isSome = false) →
      stress_process_oomed pid (some chunks) = false) ∧
    (∀ pid : Int, stress_process_oomed pid none = false) := by
  refine ⟨by decide, by decide, ?_, fun _ => rfl⟩
  intro pid chunks h
  have hnone : ∀ buf ∈ chunks, chunkOomPid buf = none := by
    intro buf hb
    obtain ⟨h1, h2⟩ := h buf hb
    unfold chunkOomPid
    cases hs : strstr buf "process".data with
    | none => rfl
    | some suffix => simp [h1, h2]
  simp only [stress_process_oomed, List.any_eq_false, decide_eq_true_eq]
  intro buf hb
  simp [hnone buf hb]

/-- Witness for `C5_detector` on a chunk containing "process" but neither
OOM phrase. -/
theorem C5_detector_witness :
    stress_process_oomed 7 (some ["a process 7 runs".data]) = false :=
  C5_detector.2.2.1 7 _ (by decide)

/-- C6: if at entry the continuation flag is cleared or the deadline has
passed, `stress_oomable_child` returns `EXIT_SUCCESS` immediately, with
no fork and zeroed counters. -/
theorem C6_pre_spawn :
    ∀ (oomable : Bool) (ev : SpawnEvent) (evs : List SpawnEvent),
      ev.cont = false ∨ ev.pastDeadline = true →
      stress_oomable_child oomable (ev :: evs) =
        some ⟨EXIT_SUCCESS, 0, 0, 0, 0, 0, [], .preSpawn⟩ := by
  intro oomable ev evs h
  simp only [stress_oomable_child, supLoop]
  rw [if_pos h]

/-- Witness for `C6_pre_spawn` with the continuation flag cleared. -/
theorem C6_pre_spawn_witness :
    stress_oomable_child false [⟨false, false, .ok, []⟩] =
      some ⟨EXIT_SUCCESS, 0, 0, 0, 0, 0, [], .preSpawn⟩ :=
  C6_pre_spawn false ⟨false, false, .ok, []⟩ [] (Or.inl rfl)

/-- C9: a fork failing with EAGAIN or ENOMEM costs one 100 ms sleep and
loops back to the pre-spawn check with all other state intact; a fork
failing with any other errno returns the distinguished status `-1`
immediately. -/
theorem C9_fork_fail :
    (∀ (oomable : Bool) (s : SupState) (forks sleeps : Nat)
       (eps : List (List Nat)) (ev : SpawnEvent) (evs : List SpawnEvent) (e : Int),
      ev.cont = true → ev.pastDeadline = false → ev.forkRes = .fail e →
      e = EAGAIN ∨ e = ENOMEM →
      supLoop oomable s forks sleeps eps (ev :: evs) =
        supLoop oomable s forks (sleeps + 1) eps evs) ∧
    (∀ (oomable : Bool) (s : SupState) (forks sleeps : Nat)
       (eps : List (List Nat)) (ev : SpawnEvent) (evs : List SpawnEvent) (e : Int),
      ev.cont = true → ev.pastDeadline = false → ev.forkRes = .fail e →
      e ≠ EAGAIN → e ≠ ENOMEM →
      supLoop oomable s forks sleeps eps (ev :: evs) =
        some ⟨-1, s.ooms, s.segvs, s.buserrs, forks, sleeps, eps, .forkErr⟩) := by
  constructor
  · intro oomable s forks sleeps eps ev evs e hc hd hf he
    simp only [supLoop]
    rw [if_neg (by simp [hc, hd]), hf]
    simp [he]
  · intro oomable s forks sleeps eps ev evs e hc hd hf hA hM
    simp only [supLoop]
    rw [if_neg (by simp [hc, hd]), hf]
    simp [hA, hM]

/-- Witness for `C9_fork_fail` at concrete fork errnos. -/
theorem C9_fork_fail_witness :
    supLoop false ⟨0, 0, 0, 0⟩ 0 0 [] [⟨true, false, .fail EAGAIN, []⟩] =
      supLoop false ⟨0, 0, 0, 0⟩ 0 1 [] [] ∧
    supLoop false ⟨0, 0, 0, 0⟩ 0 0 [] [⟨true, false, .fail 13, []⟩] =
      some ⟨-1, 0, 0, 0, 0, 0, [], .forkErr⟩ :=
  ⟨C9_fork_fail.1 false ⟨0, 0, 0, 0⟩ 0 0 [] ⟨true, false, .fail EAGAIN, []⟩ [] EAGAIN
      rfl rfl rfl (Or.inl rfl),
   C9_fork_fail.2 false ⟨0, 0, 0, 0⟩ 0 0 [] ⟨true, false, .fail 13, []⟩ [] 13
      rfl rfl rfl (by decide) (by decide)⟩

/-- C1: a child death by SIGKILL while `signals[signal_idx]` is not yet
SIGKILL takes the OOM branch: with OOMable set the supervisor returns
`EXIT_SUCCESS` at once, OOM counter untouched and no further spawn; with
OOMable clear the OOM counter grows by exactly one and control loops back
to the pre-spawn check. -/
theorem C1_oom_branch :
    ∀ (s : SupState) (forks sleeps : Nat) (eps : List (List Nat))
      (ev : SpawnEvent) (evs : List SpawnEvent) (status : Nat),
      signals.getD s.signal_idx 0 ≠ SIGKILL →
      WTERMSIG status = SIGKILL →
      ev.cont = true → ev.pastDeadline = false → ev.forkRes = .ok →
      ev.waits = [.reaped status] →
      (supLoop true s forks sleeps eps (ev :: evs) =
        some ⟨EXIT_SUCCESS, s.ooms, s.segvs, s.buserrs, forks + 1, sleeps,
              eps ++ [[]], .oomBail⟩) ∧
      (supLoop false s forks sleeps eps (ev :: evs) =
        supLoop false { s with ooms := s.ooms + 1 } (forks + 1) sleeps
          (eps ++ [[]]) evs) := by
  intro s forks sleeps eps ev evs status hidx hkill hc hd hf hw
  have hsignaled : WIFSIGNALED status = true := by
    have h9 : status % 128 = 9 := hkill
    simp [WIFSIGNALED, h9]
  have hbus : ¬ WTERMSIG status = SIGBUS := by
    rw [hkill]; decide
  have hwl : ∀ oomable, waitLoop oomable s [] ev.waits =
      (if oomable then EpisodeOut.bail s []
       else EpisodeOut.toAgain { s with ooms := s.ooms + 1 } []) := by
    intro oomable
    rw [hw]
    simp only [waitLoop, hsignaled, if_true]
    rw [if_neg hbus, if_pos ⟨hidx, hkill⟩]
  constructor
  · simp only [supLoop]
    rw [if_neg (by simp [hc, hd]), hf, hwl true]
    rfl
  · simp only [supLoop]
    rw [if_neg (by simp [hc, hd]), hf, hwl false]
    rfl

/-- Witness for `C1_oom_branch`: a first child killed externally by
SIGKILL (raw wait status 9) under both policies. -/
theorem C1_oom_branch_witness :
    supLoop true ⟨0, 0, 0, 0⟩ 0 0 [] [⟨true, false, .ok, [.reaped 9]⟩] =
      some ⟨EXIT_SUCCESS, 0, 0, 0, 1, 0, [[]], .oomBail⟩ ∧
    supLoop false ⟨0, 0, 0, 0⟩ 0 0 [] [⟨true, false, .ok, [.reaped 9]⟩] =
      supLoop false ⟨0, 1, 0, 0⟩ 1 0 [[]] [] :=
  ⟨(C1_oom_branch ⟨0, 0, 0, 0⟩ 0 0 [] ⟨true, false, .ok, [.reaped 9]⟩ [] 9
      (by decide) (by decide) rfl rfl rfl rfl).1,
   (C1_oom_branch ⟨0, 0, 0, 0⟩ 0 0 [] ⟨true, false, .ok, [.reaped 9]⟩ [] 9
      (by decide) (by decide) rfl rfl rfl rfl).2⟩

/-- The C8 trace: children die by bus error, bus error, segfault,
external SIGKILL, segfault, bus error; the last attempt exits normally
with code `c` (raw wait status `256 * c`). -/
def c8Trace (c : Nat) : List SpawnEvent :=
  [⟨true, false, .ok, [.reaped SIGBUS]⟩,
   ⟨true, false, .ok, [.reaped SIGBUS]⟩,
   ⟨true, false, .ok, [.reaped SIGSEGV]⟩,
   ⟨true, false, .ok, [.reaped SIGKILL]⟩,
   ⟨true, false, .ok, [.reaped SIGSEGV]⟩,
   ⟨true, false, .ok, [.reaped SIGBUS]⟩,
   ⟨true, false, .ok, [.reaped (256 * c)]⟩]

/-- C8: three bus-error deaths, two segfaults and one external OOM kill
(OOMable clear) followed by a normal exit with code `c` end with counters
`ooms = 1`, `segvs = 2`, `buserrs = 3` and return exactly `c`. -/
theorem C8_counters :
    ∀ c : Nat, c < 256 →
      stress_oomable_child false (c8Trace c) =
        some ⟨(c : Int), 1, 2, 3, 7, 0, [[], [], [], [], [], [], []], .report⟩ := by
  intro c hc
  have hstep : stress_oomable_child false (c8Trace c) =
      supLoop false ⟨0, 1, 2, 3⟩ 6 0 [[], [], [], [], [], []]
        [⟨true, false, .ok, [.reaped (256 * c)]⟩] := rfl
  rw [hstep]
  have hsig : WIFSIGNALED (256 * c) = false := by
    have : 256 * c % 128 = 0 := by omega
    simp [WIFSIGNALED, this]
  have hexit : WEXITSTATUS (256 * c) = c := by
    simp [WEXITSTATUS, Nat.mul_div_cancel_left, Nat.mod_eq_of_lt hc]
  simp only [supLoop, waitLoop, hsig]
  norm_num [hexit]

/-- Witness for `C8_counters` at exit code 2. -/
theorem C8_counters_witness :
    stress_oomable_child false (c8Trace 2) =
      some ⟨2, 1, 2, 3, 7, 0, [[], [], [], [], [], [], []], .report⟩ :=
  C8_counters 2 (by decide)

/-- C2 counterexample: `signal_idx` is declared before the `again:` label
and is NOT reset by `goto again`.  After four failed waits (four SIGALRMs)
and a SIGSEGV death, the freshly spawned child's first escalation signal
is SIGTERM — not the start of the schedule as the claim requires. -/
theorem C2_escalation_cex :
    stress_oomable_child false
      [⟨true, false, .ok, [.fail 5, .fail 5, .fail 5, .fail 5, .reaped SIGSEGV]⟩,
       ⟨true, false, .ok, [.fail 5, .reaped 0]⟩] =
      some ⟨0, 0, 1, 0, 2, 0,
            [[SIGALRM, SIGALRM, SIGALRM, SIGALRM], [SIGTERM]], .report⟩ ∧
    SIGTERM ≠ SIGALRM :=
  ⟨by decide, by decide⟩

theorem signals_take_succ :
    ∀ i : Nat, i ≤ 5 →
      signals.take (i + 1) = signals.take i ++ [signals.getD i 0] := by
  intro i hi
  interval_cases i <;> rfl

/-- The escalation invariant carried by a `waitLoop` outcome: the signals
delivered so far (`pre` from earlier episodes plus this episode's) are
exactly the first `signal_idx` entries of the schedule. -/
def epInv (pre : List Nat) : EpisodeOut → Prop
  | .toReport s' sent' _ => pre ++ sent' = signals.take s'.signal_idx ∧ s'.signal_idx ≤ 6
  | .toAgain s' sent' => pre ++ sent' = signals.take s'.signal_idx ∧ s'.signal_idx ≤ 5
  | .bail s' sent' => pre ++ sent' = signals.take s'.signal_idx ∧ s'.signal_idx ≤ 5
  | .stuck => True

theorem waitLoop_inv (oomable : Bool) :
    ∀ (ws : List WaitResult) (s : SupState) (sent pre : List Nat),
      s.signal_idx ≤ 5 → pre ++ sent = signals.take s.signal_idx →
      epInv pre (waitLoop oomable s sent ws) := by
  intro ws
  induction ws with
  | nil => intro s sent pre _ _; trivial
  | cons w ws ih =>
    intro s sent pre h5 hpre
    cases w with
    | fail e =>
      simp only [waitLoop]
      by_cases hE : e = ECHILD
      · rw [if_pos hE]
        exact ⟨hpre, by omega⟩
      · rw [if_neg hE]
        have hgrow : pre ++ (sent ++ [signals.getD s.signal_idx 0]) =
            signals.take (s.signal_idx + 1) := by
          rw [← List.append_assoc, hpre, signals_take_succ s.signal_idx h5]
        by_cases h6 : s.signal_idx + 1 ≥ signals.length
        · rw [if_pos h6]
          exact ⟨hgrow, by simp [signals] at h6 ⊢; omega⟩
        · rw [if_neg h6]
          have h5' : s.signal_idx + 1 ≤ 5 := by
            simp [signals] at h6; omega
          exact ih _ _ pre h5' hgrow
    | reaped status =>
      simp only [waitLoop]
      split
      · split
        · exact ⟨hpre, h5⟩
        · split
          · split
            · exact ⟨hpre, h5⟩
            · exact ⟨hpre, h5⟩
          · split
            · exact ⟨hpre, h5⟩
            · exact ⟨hpre, by omega⟩
      · exact ⟨hpre, by omega⟩

theorem supLoop_sigs (oomable : Bool) :
    ∀ (evs : List SpawnEvent) (s : SupState) (forks sleeps : Nat)
      (eps : List (List Nat)),
      s.signal_idx ≤ 5 → eps.flatten = signals.take s.signal_idx →
      ∀ out, supLoop oomable s forks sleeps eps evs = some out →
        ∃ m, m ≤ 6 ∧ out.episodes.flatten = signals.take m ∧
          (out.path ≠ ExitPath.report → m ≤ 5) := by
  intro evs
  induction evs with
  | nil => intro s forks sleeps eps _ _ out h; simp [supLoop] at h
  | cons ev evs ih =>
    intro s forks sleeps eps h5 hinv out h
    simp only [supLoop] at h
    by_cases hpre : ev.cont = false ∨ ev.pastDeadline = true
    · rw [if_pos hpre] at h
      cases h
      exact ⟨s.signal_idx, by omega, hinv, fun _ => h5⟩
    · rw [if_neg hpre] at h
      cases hf : ev.forkRes with
      | fail e =>
        rw [hf] at h
        dsimp only at h
        by_cases he : e = EAGAIN ∨ e = ENOMEM
        · rw [if_pos he] at h
          exact ih s forks (sleeps + 1) eps h5 hinv out h
        · rw [if_neg he] at h
          cases h
          exact ⟨s.signal_idx, by omega, hinv, fun _ => h5⟩
      | ok =>
        rw [hf] at h
        dsimp only at h
        have hep := waitLoop_inv oomable ev.waits s [] eps.flatten h5
          (by simpa using hinv)
        cases hwl : waitLoop oomable s [] ev.waits with
        | stuck => rw [hwl] at h; exact absurd h (by simp)
        | toReport s' sent' rc =>
          rw [hwl] at h hep
          obtain ⟨hj, hi⟩ := hep
          cases h
          refine ⟨s'.signal_idx, hi, ?_, fun hne => absurd rfl hne⟩
          simpa using hj
        | bail s' sent' =>
          rw [hwl] at h hep
          obtain ⟨hj, hi⟩ := hep
          cases h
          refine ⟨s'.signal_idx, by omega, ?_, fun _ => hi⟩
          simpa using hj
        | toAgain s' sent' =>
          rw [hwl] at h hep
          obtain ⟨hj, hi⟩ := hep
          exact ih s' (forks + 1) sleeps (eps ++ [sent']) hi
            (by simpa using hj) out h

/-- C2 (amended): the escalation index persists across respawns within one
invocation rather than being reset on every fresh spawn; the escalation
signals delivered over the whole invocation, in order, form a prefix of
`[SIGALRM, SIGALRM, SIGALRM, SIGALRM, SIGTERM, SIGKILL]`; SIGKILL is sent
at most once, and once it has been sent the supervisor gives up (the run
ends at the report label). -/
theorem C2_escalation :
    ∀ (oomable : Bool) (trace : List SpawnEvent) (out : RunOut),
      stress_oomable_child oomable trace = some out →
      out.episodes.flatten = signals.take (out.episodes.flatten.length) ∧
      (out.episodes.flatten).count SIGKILL ≤ 1 ∧
      (SIGKILL ∈ out.episodes.flatten → out.path = ExitPath.report) := by
  intro oomable trace out h
  obtain ⟨m, hm6, hjoin, hpath⟩ :=
    supLoop_sigs oomable trace ⟨0, 0, 0, 0⟩ 0 0 [] (by decide) rfl out h
  have hlen : (out.episodes.flatten).length = m := by
    rw [hjoin, List.length_take]
    simp [signals]
    omega
  refine ⟨by rw [hlen, hjoin], ?_, ?_⟩
  · rw [hjoin]
    interval_cases m <;> decide
  · intro hmem
    rw [hjoin] at hmem
    have hm : m = 6 := by
      by_contra hne
      have hm5 : m ≤ 5 := by omega
      interval_cases m <;> revert hmem <;> decide
    by_contra hnp
    have := hpath hnp
    omega

/-- Witness for `C2_escalation`: one failed wait then a clean exit. -/
theorem C2_escalation_witness :
    ([[SIGALRM]] : List (List Nat)).flatten =
      signals.take ([[SIGALRM]] : List (List Nat)).flatten.length ∧
    (([[SIGALRM]] : List (List Nat)).flatten).count SIGKILL ≤ 1 ∧
    (SIGKILL ∈ ([[SIGALRM]] : List (List Nat)).flatten →
      ExitPath.report = ExitPath.report) :=
  C2_escalation false [⟨true, false, .ok, [.fail 5, .reaped 0]⟩]
    ⟨0, 0, 0, 0, 1, 0, [[SIGALRM]], .report⟩ (by decide)

/-- C7 counterexample: the OOMable bump is applied only when `args` is
non-NULL (`if (args && (g_opt_flags & OPT_FLAGS_OOMABLE))`).  Called for
the main process (`args == NULL`) with `killable = false`, OOMable set and
high privilege, the claimed effective killability is `false ∨ true = true`
— yet the code writes the modern "never kill" value `-1000`, not the
maximum `1000`. -/
theorem C7_values_cex :
    (stress_set_oom_adjustment false true false false true
      (fun _ => .writeOk) (fun _ => .writeOk)).modernWrite =
      some OOM_SCORE_ADJ_MIN ∧
    OOM_SCORE_ADJ_MIN ≠ OOM_SCORE_ADJ_MAX :=
  ⟨by decide, by decide⟩

/-- C7 (amended): with the no-OOM-adjust flag clear, the effective
killability is `killable` OR (`args` non-NULL AND the OOMable flag); the
value sent to the modern interface is `1000` when effective-killable,
`-1000` when non-killable with high privilege, else `0`; the legacy
interface, when attempted, gets `15`, `-17` or `-16` respectively; every
value written lies in the documented range of its interface, and
effective-killable requests never select a "never kill" value. -/
theorem C7_values :
    ∀ (oomable argsPresent killable high_priv : Bool)
      (mAtt lAtt : Nat → WriteOutcome) (t : OomAdjustTrace),
      t = stress_set_oom_adjustment false oomable argsPresent killable high_priv
            mAtt lAtt →
      (t.modernWrite =
        some (if killable || (argsPresent && oomable) then OOM_SCORE_ADJ_MAX
              else if high_priv then OOM_SCORE_ADJ_MIN else 0)) ∧
      (t.legacyWrite = none ∨ t.legacyWrite =
        some (if killable || (argsPresent && oomable) then OOM_ADJ_MAX
              else if high_priv then OOM_ADJ_NO_OOM else OOM_ADJ_MIN)) ∧
      (∀ v : Int, t.modernWrite = some v →
        OOM_SCORE_ADJ_MIN ≤ v ∧ v ≤ OOM_SCORE_ADJ_MAX) ∧
      (∀ v : Int, t.legacyWrite = some v →
        OOM_ADJ_NO_OOM ≤ v ∧ v ≤ OOM_ADJ_MAX) ∧
      ((killable || (argsPresent && oomable)) = true →
        t.modernWrite ≠ some OOM_SCORE_ADJ_MIN ∧
        t.legacyWrite ≠ some OOM_ADJ_NO_OOM) := by
  intro oomable argsPresent killable high_priv mAtt lAtt t ht
  have hshape :
      t.modernWrite =
        some (if killable || (argsPresent && oomable) then OOM_SCORE_ADJ_MAX
              else if high_priv then OOM_SCORE_ADJ_MIN else 0) ∧
      (t.legacyWrite = none ∨ t.legacyWrite =
        some (if killable || (argsPresent && oomable) then OOM_ADJ_MAX
              else if high_priv then OOM_ADJ_NO_OOM else OOM_ADJ_MIN)) := by
    subst ht
    by_cases hr : stress_set_adjustment mAtt = 0 ∨
        stress_set_adjustment mAtt ≠ -ENOENT
    · simp [stress_set_oom_adjustment, hr]
    · simp [stress_set_oom_adjustment, hr]
  obtain ⟨hm, hl⟩ := hshape
  refine ⟨hm, hl, ?_, ?_, ?_⟩
  · intro v hv
    rw [hm] at hv
    cases hv
    unfold OOM_SCORE_ADJ_MIN OOM_SCORE_ADJ_MAX
    split
    · omega
    · split <;> simp [OOM_SCORE_ADJ_MIN]
  · intro v hv
    rcases hl with hl | hl
    · rw [hl] at hv; cases hv
    · rw [hl] at hv
      cases hv
      unfold OOM_ADJ_NO_OOM OOM_ADJ_MAX
      split
      · omega
      · split <;> simp [OOM_ADJ_NO_OOM, OOM_ADJ_MIN]
  · intro hk
    constructor
    · rw [hm]
      simp [hk, OOM_SCORE_ADJ_MAX, OOM_SCORE_ADJ_MIN]
    · rcases hl with hl | hl
      · rw [hl]; simp
      · rw [hl]
        simp [hk, OOM_ADJ_MAX, OOM_ADJ_NO_OOM]

/-- Witness for `C7_values`: a killable stressor child, unprivileged,
modern interface healthy. -/
theorem C7_values_witness :
    (stress_set_oom_adjustment false false true true false
      (fun _ => .writeOk) (fun _ => .writeOk)).modernWrite =
      some OOM_SCORE_ADJ_MAX :=
  ((C7_values false true true false (fun _ => .writeOk) (fun _ => .writeOk)
    _ rfl).1).trans (by decide)

end StressNg
